import Mathlib

/-
Verification of the `pl::Status` value type from `src/common/base/status.h`.

The header defines the Status wrapper (an owned, nullable failure State), the
inline accessors (ok / code / msg / context / has_context), the deep-cloning
copy constructor and copy assignment, operator== / operator!= (via ToString),
the StatusAdapter mechanism, and the PL_RETURN_IF_ERROR propagation macro.
Bodies that live in status.cc (the (code,msg) constructor, the wire-form
decoding constructor, and ToString) are modelled from the specification and
are marked as such in their doc comments.
-/

namespace pl

/-- Modelled from the spec: the external code registry (`pl::statuspb::Code`,
generated from a proto file that is not under src/) is an enumeration with a
distinguished OK member; all other members are failure categories, opaque
beyond identity comparison. The member names listed here are the ones the
repository and spec mention (OK, NOT_FOUND, UNIMPLEMENTED, ...). -/
inductive Code where
  | OK
  | CANCELLED
  | UNKNOWN
  | INVALID_ARGUMENT
  | DEADLINE_EXCEEDED
  | NOT_FOUND
  | ALREADY_EXISTS
  | PERMISSION_DENIED
  | UNAUTHENTICATED
  | INTERNAL
  | UNIMPLEMENTED
  | RESOURCE_UNAVAILABLE
  | SYSTEM
  | FAILED_PRECONDITION
deriving DecidableEq

/-- The textual name of a code, as an enum-name rendering would produce it. -/
def codeName : Code → String
  | .OK => "OK"
  | .CANCELLED => "CANCELLED"
  | .UNKNOWN => "UNKNOWN"
  | .INVALID_ARGUMENT => "INVALID_ARGUMENT"
  | .DEADLINE_EXCEEDED => "DEADLINE_EXCEEDED"
  | .NOT_FOUND => "NOT_FOUND"
  | .ALREADY_EXISTS => "ALREADY_EXISTS"
  | .PERMISSION_DENIED => "PERMISSION_DENIED"
  | .UNAUTHENTICATED => "UNAUTHENTICATED"
  | .INTERNAL => "INTERNAL"
  | .UNIMPLEMENTED => "UNIMPLEMENTED"
  | .RESOURCE_UNAVAILABLE => "RESOURCE_UNAVAILABLE"
  | .SYSTEM => "SYSTEM"
  | .FAILED_PRECONDITION => "FAILED_PRECONDITION"

/-- Model of the opaque context payload (`google::protobuf::Any`): a
type-erased box holding a type identifier and serialized bytes. Only the
capabilities the spec requires (pack / deep clone / unpack) matter; we model
its observable value. -/
structure AnyPB where
  type_url : String
  value : String
deriving DecidableEq

/-- `Status::State`: the failure-only heap record `{code, msg, context}`
(status.h, struct State). `context` is `nullptr`-able, modelled as Option. -/
structure State where
  code : Code
  msg : String
  context : Option AnyPB
deriving DecidableEq

/-- `pl::Status`: wraps `std::unique_ptr<State> state_`, null on success.
A null `state_` is modelled as `none`. -/
structure Status where
  state_ : Option State
deriving DecidableEq

/-- `bool ok() const { return (state_ == nullptr); }` -/
def Status.ok (s : Status) : Bool := s.state_.isNone

/-- `Code code() const { return ok() ? pl::statuspb::OK : state_->code; }` -/
def Status.code (s : Status) : Code :=
  match s.state_ with
  | none => Code.OK
  | some st => st.code

/-- `const std::string& msg() const { return ok() ? empty_string() : state_->msg; }`
where `empty_string()` is the process-wide empty-string constant. -/
def Status.msg (s : Status) : String :=
  match s.state_ with
  | none => ""
  | some st => st.msg

/-- `Any* context() const { return ok() ? nullptr : state_->context.get(); }` -/
def Status.context (s : Status) : Option AnyPB :=
  match s.state_ with
  | none => none
  | some st => st.context

/-- `bool has_context() const { return ok() ? false : state_->context != nullptr; }` -/
def Status.has_context (s : Status) : Bool :=
  match s.state_ with
  | none => false
  | some st => st.context.isSome

/-- `static Status OK() { return Status(); }` — the default constructor leaves
`state_` null. -/
def Status.OK : Status := ⟨none⟩

/-- Modelled from the spec: `Status::Status(Code code, const std::string& msg)`
is defined in status.cc, which is not under src/. Per §4.1 it constructs a
State with no context; passing OK through this path is the degenerate case the
spec says yields `ok()==false` despite `code==OK`, so the State is allocated
unconditionally. -/
def Status.fromCodeMsg (c : Code) (m : String) : Status := ⟨some ⟨c, m, none⟩⟩

/-- Modelled from the spec: `Status::ToString()` is defined in status.cc, which
is not under src/. Per §4.1 it is a deterministic rendering combining the
code's name and the message; the success rendering is the code name "OK". -/
def Status.ToString (s : Status) : String :=
  match s.state_ with
  | none => "OK"
  | some st => codeName st.code ++ " : " ++ st.msg

/-- `bool operator==(const Status& x) const {
      return (this->state_ == x.state_) || (ToString() == x.ToString()); }`
At the level of values the unique_ptr comparison `state_ == x.state_` holds
exactly when both are null, or when both operands are one and the same object
(exclusive ownership forbids two distinct live Status objects sharing a
non-null State); in the same-object case the ToString disjunct is also true,
so the value-level truth table is: both-null, or equal ToString. -/
def Status.opEq (a b : Status) : Bool :=
  (a.state_.isNone && b.state_.isNone) || decide (a.ToString = b.ToString)

/-- `bool operator!=(const Status& x) const { return !(*this == x); }` -/
def Status.opNe (a b : Status) : Bool := !(a.opEq b)

/-- Model of the wire form `pl::statuspb::Status`: `{err_code, msg, optional
context}` (the proto schema per §3/§6 of the spec). -/
structure StatusPB where
  err_code : Code
  msg : String
  context : Option AnyPB
deriving DecidableEq

/-- Modelled from the spec: `Status::Status(const pl::statuspb::Status&)` is
defined in status.cc, which is not under src/. Per §4.1 it decodes code and
message verbatim; if the wire form carries a context entry it is stored as an
opaque box. -/
def Status.fromProto (pb : StatusPB) : Status := ⟨some ⟨pb.err_code, pb.msg, pb.context⟩⟩

/-- `template <> Status StatusAdapter<Status>(const Status& s) { return s; }` -/
def StatusAdapterStatus (s : Status) : Status := s

/-- `template <> Status StatusAdapter<pl::statuspb::Status>(const statuspb::Status& s)
    { return Status(s); }` -/
def StatusAdapterStatusPB (pb : StatusPB) : Status := Status.fromProto pb

/-- `PL_RETURN_IF_ERROR(expr)` expands to
`{ const auto& tmp = (expr); if (!tmp.ok()) return StatusAdapter(tmp); }`:
the expression is bound to a fresh local exactly once, `ok()` is tested on the
raw value, and on failure the adapted value is returned from the enclosing
function; otherwise control continues with the rest of the function body.
Side-effecting expressions are modelled as state transformers on `σ`. -/
def plReturnIfError {α σ : Type} (okF : α → Bool) (adapt : α → Status)
    (expr : σ → α × σ) (rest : σ → Status × σ) (s : σ) : Status × σ :=
  let r := expr s
  if okF r.1 then rest r.2 else (adapt r.1, r.2)

/-
Heap model for the ownership claims. The copy constructor and copy assignment
in status.h are about heap records and pointer identity (deep clone versus
aliasing), so we model a heap of State records addressed by naturals, with a
monotone allocator: a C++ allocator never hands out an address equal to that
of any live object, which the model mirrors by allocating at the
never-yet-used address `next`. A `Status` object is its `state_` pointer:
`none` for null, `some p` for a pointer to the record at address `p`.
-/

/-- Heap of State records: `next` is the first never-allocated address. -/
structure Heap where
  next : Nat
  mem : Nat → Option State

/-- A well-formed heap has no record at or beyond `next`. -/
def Heap.wf (h : Heap) : Prop := ∀ a, h.next ≤ a → h.mem a = none

/-- Allocate a fresh record, returning the new heap and its address. -/
def Heap.alloc (h : Heap) (st : State) : Heap × Nat :=
  (⟨h.next + 1, fun a => if a = h.next then some st else h.mem a⟩, h.next)

/-- Destroy the record at `p` (unique_ptr reset / destructor). -/
def Heap.free (h : Heap) (p : Nat) : Heap :=
  ⟨h.next, fun a => if a = p then none else h.mem a⟩

/-- A Status object's `state_` pointer: null or an address. -/
abbrev HStatus : Type := Option Nat

/-- Destroy the pointee of a possibly-null `state_` pointer. -/
def Heap.freeOpt (h : Heap) (sp : HStatus) : Heap :=
  match sp with
  | Option.none => h
  | Option.some p => h.free p

/-- The deep clone of a context box: `context->New()` followed by
`CopyFrom(*context)` yields a fresh object with the same observable value. -/
def cloneAny (a : AnyPB) : AnyPB := ⟨a.type_url, a.value⟩

/-- `State::State(const State& state)` (status.h): copies code and msg; a null
context stays null, a non-null context is deep-cloned via New/CopyFrom. -/
def cloneState (st : State) : State :=
  { code := st.code, msg := st.msg,
    context := match st.context with
      | Option.none => Option.none
      | Option.some c => Option.some (cloneAny c) }

/-- `Status::Status(const Status& s)` (status.h):
`state_((s.state_ == nullptr) ? nullptr : new State(*s.state_))`. The `new`
allocates a fresh record holding the deep clone. The dangling-pointer case is
unreachable for well-formed inputs and is mapped to the null status. -/
def copyStatus (h : Heap) (sp : HStatus) : Heap × HStatus :=
  match sp with
  | Option.none => (h, Option.none)
  | Option.some p =>
    match h.mem p with
    | Option.none => (h, Option.none)
    | Option.some st =>
      let r := h.alloc (cloneState st)
      (r.1, Option.some r.2)

/-- `void Status::operator=(const Status& s)` (status.h):
`if (state_ != s.state_) { if (s.state_ == nullptr) state_ = nullptr;
 else state_ = std::make_unique<State>(*s.state_); }`.
The pointer comparison `state_ != s.state_` is the first `if`; resetting
`state_` destroys the old record; `make_unique` allocates a fresh clone. (In
C++ the fresh allocation and the destruction of the old record cannot collide,
because a fresh address is distinct from every live address; the model keeps
that guarantee by freeing the old record before allocating at `next`, which no
live pointer can equal in a well-formed heap.) -/
def assignStatus (h : Heap) (dst src : HStatus) : Heap × HStatus :=
  if dst = src then (h, dst)
  else
    match src with
    | Option.none => (h.freeOpt dst, Option.none)
    | Option.some p =>
      match h.mem p with
      | Option.none => (h, dst)
      | Option.some st =>
        let h1 := h.freeOpt dst
        let r := h1.alloc (cloneState st)
        (r.1, Option.some r.2)

/-- Read a Status object (a `state_` pointer) back into the value model. -/
def readStatus (h : Heap) (sp : HStatus) : Status :=
  match sp with
  | Option.none => ⟨none⟩
  | Option.some p => ⟨h.mem p⟩

/-- A concrete failure State carrying a context payload, used to instantiate
the ownership theorems. -/
def wState : State :=
  ⟨Code.NOT_FOUND, "missing key", some ⟨"example.com/Foo", "payload"⟩⟩

/-- A concrete one-record heap used to instantiate the ownership theorems:
address 0 holds `wState`. -/
def wHeap : Heap :=
  ⟨1, fun a => if a = 0 then some wState else none⟩

/-! Helper lemmas. -/

/-- No code name contains a space, so the " : " separator in ToString cannot
be confused with part of a code name. -/
theorem space_not_in_codeName : ∀ c : Code, ' ' ∉ (codeName c).data := by
  intro c; cases c <;> decide

/-- Distinct codes have distinct names. -/
theorem codeName_injective : ∀ c1 c2 : Code, codeName c1 = codeName c2 → c1 = c2 := by
  intro c1 c2; cases c1 <;> cases c2 <;> decide

/-- Splitting at a separator character that occurs in neither left part is
unambiguous. -/
theorem sep_append_inj (l1 : List Char) : ∀ (l2 r1 r2 : List Char),
    ' ' ∉ l1 → ' ' ∉ l2 → l1 ++ (' ' :: r1) = l2 ++ (' ' :: r2) → l1 = l2 ∧ r1 = r2 := by
  induction l1 with
  | nil =>
    intro l2 r1 r2 _ h2 heq
    cases l2 with
    | nil =>
      simp only [List.nil_append, List.cons.injEq] at heq
      exact ⟨rfl, heq.2⟩
    | cons b t =>
      simp only [List.nil_append, List.cons_append, List.cons.injEq] at heq
      obtain ⟨hb, -⟩ := heq
      subst hb
      exact absurd (List.mem_cons_self _ _) h2
  | cons a t ih =>
    intro l2 r1 r2 h1 h2 heq
    cases l2 with
    | nil =>
      simp only [List.cons_append, List.nil_append, List.cons.injEq] at heq
      obtain ⟨ha, -⟩ := heq
      subst ha
      exact absurd (List.mem_cons_self _ _) h1
    | cons b t2 =>
      simp only [List.cons_append, List.cons.injEq] at heq
      obtain ⟨hab, htail⟩ := heq
      have h1' : ' ' ∉ t := fun hm => h1 (List.mem_cons_of_mem _ hm)
      have h2' : ' ' ∉ t2 := fun hm => h2 (List.mem_cons_of_mem _ hm)
      obtain ⟨he, hr⟩ := ih t2 r1 r2 h1' h2' htail
      exact ⟨by rw [hab, he], hr⟩

/-- The failure rendering `codeName c ++ " : " ++ m` determines the code and
the message. -/
theorem failToString_inj (c1 c2 : Code) (m1 m2 : String)
    (h : codeName c1 ++ " : " ++ m1 = codeName c2 ++ " : " ++ m2) :
    c1 = c2 ∧ m1 = m2 := by
  have hd' : (codeName c1).data ++ (' ' :: ':' :: ' ' :: m1.data)
           = (codeName c2).data ++ (' ' :: ':' :: ' ' :: m2.data) := by
    have hd := congrArg String.data h
    simpa [String.data_append, List.append_assoc] using hd
  obtain ⟨hn, hr⟩ := sep_append_inj _ _ _ _
    (space_not_in_codeName c1) (space_not_in_codeName c2) hd'
  refine ⟨codeName_injective c1 c2 (String.ext hn), ?_⟩
  simp only [List.cons.injEq, true_and] at hr
  exact String.ext hr

/-- The success rendering "OK" is never a failure rendering. -/
theorem ok_ne_fail (c : Code) (m : String) :
    ("OK" : String) ≠ codeName c ++ " : " ++ m := by
  intro h
  have hmem : ' ' ∈ (codeName c ++ " : " ++ m).data := by
    rw [String.data_append, String.data_append]
    exact List.mem_append_left _ (List.mem_append_right _ (by decide))
  rw [← congrArg String.data h] at hmem
  exact absurd hmem (by decide)

/-- operator== is reflexive on values. -/
theorem opEq_refl (s : Status) : s.opEq s = true := by
  simp [Status.opEq]

/-! Claim theorems. -/

/-- C3: every Status produced by the zero-argument success factory satisfies
`ok()==true`, `code()==OK`, `msg()==""`, `has_context()==false`, and a null
`context()`. -/
theorem c3_ok_factory_properties :
    Status.OK.ok = true ∧ Status.OK.code = Code.OK ∧ Status.OK.msg = "" ∧
    Status.OK.has_context = false ∧ Status.OK.context = none :=
  ⟨rfl, rfl, rfl, rfl, rfl⟩

/-- C1 counterexample: the construction path `Status(OK, "boom")` produces a
Status with `ok()==false` and `code()==OK`, refuting the claim that no Status
with `ok()==false` ever has `code()==OK`. -/
theorem c1_counterexample :
    (Status.fromCodeMsg Code.OK "boom").ok = false ∧
    (Status.fromCodeMsg Code.OK "boom").code = Code.OK :=
  ⟨rfl, rfl⟩

/-- C1 (amended): `ok()` is true exactly when the internal state is absent,
and `ok()` implies `code()==OK`; the converse implication fails, because the
degenerate path `Status(OK, m)` yields `ok()==false` with `code()==OK`. -/
theorem c1_amended_invariant (s : Status) (m : String) :
    (s.ok = true ↔ s.state_ = none) ∧
    (s.ok = true → s.code = Code.OK) ∧
    (Status.fromCodeMsg Code.OK m).ok = false ∧
    (Status.fromCodeMsg Code.OK m).code = Code.OK := by
  obtain ⟨st⟩ := s
  cases st <;> simp [Status.ok, Status.code, Status.fromCodeMsg]

/-- C1 witness: the amended invariant evaluated at concrete inputs. -/
theorem c1_amended_invariant_witness :
    (Status.OK.ok = true ↔ Status.OK.state_ = none) ∧
    (Status.OK.ok = true → Status.OK.code = Code.OK) ∧
    (Status.fromCodeMsg Code.OK "boom").ok = false ∧
    (Status.fromCodeMsg Code.OK "boom").code = Code.OK :=
  c1_amended_invariant Status.OK "boom"

/-- C2 counterexample: `Status(OK, "")` and the success status have equal
codes and equal messages, yet operator== is false, refuting the claimed
equivalence at this input. -/
theorem c2_counterexample :
    ¬ ((Status.fromCodeMsg Code.OK "").opEq Status.OK = true ↔
       (((Status.fromCodeMsg Code.OK "").ok = true ∧ Status.OK.ok = true) ∨
        ((Status.fromCodeMsg Code.OK "").code = Status.OK.code ∧
         (Status.fromCodeMsg Code.OK "").msg = Status.OK.msg))) := by
  decide

/-- C2 (amended): operator== holds exactly when both statuses are success, or
both are failures with equal codes and byte-equal messages (so a degenerate
`Status(OK, m)` is never equal to a success status); the context payload plays
no role in equality; operator!= is the negation of operator==. -/
theorem c2_amended_equality (a b : Status) :
    (a.opEq b = true ↔
      ((a.ok = true ∧ b.ok = true) ∨
       (a.ok = false ∧ b.ok = false ∧ a.code = b.code ∧ a.msg = b.msg))) ∧
    a.opNe b = !(a.opEq b) := by
  refine ⟨?_, rfl⟩
  obtain ⟨sa⟩ := a
  obtain ⟨sb⟩ := b
  cases sa with
  | none =>
    cases sb with
    | none => simp [Status.opEq, Status.ok]
    | some st =>
      have hne := ok_ne_fail st.code st.msg
      simp [Status.opEq, Status.ok, Status.ToString, hne]
  | some st1 =>
    cases sb with
    | none =>
      have hne : codeName st1.code ++ " : " ++ st1.msg ≠ "OK" :=
        fun hh => ok_ne_fail st1.code st1.msg hh.symm
      simp [Status.opEq, Status.ok, Status.ToString, hne]
    | some st2 =>
      simp only [Status.opEq, Status.ok, Status.ToString, Status.code, Status.msg,
        Option.isNone_some, Bool.and_self, Bool.false_or, decide_eq_true_eq,
        Bool.false_eq_true, false_and, and_false, false_or, true_and, and_true,
        false_iff, iff_true, eq_self_iff_true]
      constructor
      · exact failToString_inj st1.code st2.code st1.msg st2.msg
      · rintro ⟨h1, h2⟩
        rw [h1, h2]

/-- C2 witness: the amended equivalence evaluated at concrete statuses. -/
theorem c2_amended_equality_witness :
    ((Status.fromCodeMsg Code.NOT_FOUND "missing key").opEq Status.OK = true ↔
      (((Status.fromCodeMsg Code.NOT_FOUND "missing key").ok = true ∧ Status.OK.ok = true) ∨
       ((Status.fromCodeMsg Code.NOT_FOUND "missing key").ok = false ∧ Status.OK.ok = false ∧
        (Status.fromCodeMsg Code.NOT_FOUND "missing key").code = Status.OK.code ∧
        (Status.fromCodeMsg Code.NOT_FOUND "missing key").msg = Status.OK.msg))) ∧
    (Status.fromCodeMsg Code.NOT_FOUND "missing key").opNe Status.OK =
      !((Status.fromCodeMsg Code.NOT_FOUND "missing key").opEq Status.OK) :=
  c2_amended_equality (Status.fromCodeMsg Code.NOT_FOUND "missing key") Status.OK

/-- C4: for every non-OK code c and every message m (the empty message
included), `Status(c, m)` satisfies `ok()==false`, `code()==c`, `msg()==m`,
and carries no context. -/
theorem c4_code_msg_constructor (c : Code) (m : String) (_h : c ≠ Code.OK) :
    (Status.fromCodeMsg c m).ok = false ∧ (Status.fromCodeMsg c m).code = c ∧
    (Status.fromCodeMsg c m).msg = m ∧
    (Status.fromCodeMsg c m).has_context = false ∧
    (Status.fromCodeMsg c m).context = none :=
  ⟨rfl, rfl, rfl, rfl, rfl⟩

/-- C4 witness: the constructor contract at NOT_FOUND / "missing key". -/
theorem c4_code_msg_constructor_witness :
    (Status.fromCodeMsg Code.NOT_FOUND "missing key").ok = false ∧
    (Status.fromCodeMsg Code.NOT_FOUND "missing key").code = Code.NOT_FOUND ∧
    (Status.fromCodeMsg Code.NOT_FOUND "missing key").msg = "missing key" ∧
    (Status.fromCodeMsg Code.NOT_FOUND "missing key").has_context = false ∧
    (Status.fromCodeMsg Code.NOT_FOUND "missing key").context = none :=
  c4_code_msg_constructor Code.NOT_FOUND "missing key" (by decide)

/-- C7: the Status→Status adapter specialization returns the exact same
value, and the result is equal to the input per operator==. -/
theorem c7_adapter_identity (s : Status) :
    StatusAdapterStatus s = s ∧ (StatusAdapterStatus s).opEq s = true :=
  ⟨rfl, opEq_refl s⟩

/-- C7 witness: the adapter identity law at a concrete failure status. -/
theorem c7_adapter_identity_witness :
    StatusAdapterStatus (Status.fromCodeMsg Code.NOT_FOUND "missing key") =
      Status.fromCodeMsg Code.NOT_FOUND "missing key" ∧
    (StatusAdapterStatus (Status.fromCodeMsg Code.NOT_FOUND "missing key")).opEq
      (Status.fromCodeMsg Code.NOT_FOUND "missing key") = true :=
  c7_adapter_identity (Status.fromCodeMsg Code.NOT_FOUND "missing key")

/-- C8: adapting a wire-form status with code X and message Y produces a
Status whose `code()` is X and whose `msg()` is Y, operator==-equal to
`Status(X, Y)` (the wire context, if any, does not disturb this). -/
theorem c8_adapter_wire (pb : StatusPB) :
    (StatusAdapterStatusPB pb).code = pb.err_code ∧
    (StatusAdapterStatusPB pb).msg = pb.msg ∧
    (StatusAdapterStatusPB pb).opEq (Status.fromCodeMsg pb.err_code pb.msg) = true := by
  refine ⟨rfl, rfl, ?_⟩
  simp [Status.opEq, StatusAdapterStatusPB, Status.fromProto, Status.fromCodeMsg,
    Status.ToString]

/-- C8 witness: the wire adapter at a concrete wire value carrying a context. -/
theorem c8_adapter_wire_witness :
    (StatusAdapterStatusPB ⟨Code.INTERNAL, "wire msg", some ⟨"example.com/Bar", "ctxbytes"⟩⟩).code
        = Code.INTERNAL ∧
    (StatusAdapterStatusPB ⟨Code.INTERNAL, "wire msg", some ⟨"example.com/Bar", "ctxbytes"⟩⟩).msg
        = "wire msg" ∧
    (StatusAdapterStatusPB ⟨Code.INTERNAL, "wire msg", some ⟨"example.com/Bar", "ctxbytes"⟩⟩).opEq
        (Status.fromCodeMsg Code.INTERNAL "wire msg") = true :=
  c8_adapter_wire ⟨Code.INTERNAL, "wire msg", some ⟨"example.com/Bar", "ctxbytes"⟩⟩

/-- C6: the propagation idiom evaluates its argument expression exactly once
(the expression increments a counter; the counter ends at n+1 on every path),
returns the failing status unaltered (same code, same message — it is the very
value the expression produced) when it is not ok, and otherwise falls through
to the rest of the enclosing function. -/
theorem c6_return_if_error (f g : Nat → Status) (n : Nat) :
    (plReturnIfError Status.ok StatusAdapterStatus
        (fun k => (f k, k + 1)) (fun k => (g k, k)) n).2 = n + 1 ∧
    ((f n).ok = false →
      plReturnIfError Status.ok StatusAdapterStatus
        (fun k => (f k, k + 1)) (fun k => (g k, k)) n = (f n, n + 1)) ∧
    ((f n).ok = true →
      plReturnIfError Status.ok StatusAdapterStatus
        (fun k => (f k, k + 1)) (fun k => (g k, k)) n = (g (n + 1), n + 1)) := by
  unfold plReturnIfError StatusAdapterStatus
  cases hok : (f n).ok <;> simp [hok]

/-- C6 witness: the idiom applied to a sub-call that fails with
NOT_FOUND / "missing key" from counter 0. -/
theorem c6_return_if_error_witness :
    (plReturnIfError Status.ok StatusAdapterStatus
        (fun k => ((fun _ => Status.fromCodeMsg Code.NOT_FOUND "missing key") k, k + 1))
        (fun k => ((fun _ => Status.OK) k, k)) 0).2 = 0 + 1 ∧
    (((fun _ => Status.fromCodeMsg Code.NOT_FOUND "missing key") 0).ok = false →
      plReturnIfError Status.ok StatusAdapterStatus
        (fun k => ((fun _ => Status.fromCodeMsg Code.NOT_FOUND "missing key") k, k + 1))
        (fun k => ((fun _ => Status.OK) k, k)) 0 =
        ((fun _ => Status.fromCodeMsg Code.NOT_FOUND "missing key") 0, 0 + 1)) ∧
    (((fun _ => Status.fromCodeMsg Code.NOT_FOUND "missing key") 0).ok = true →
      plReturnIfError Status.ok StatusAdapterStatus
        (fun k => ((fun _ => Status.fromCodeMsg Code.NOT_FOUND "missing key") k, k + 1))
        (fun k => ((fun _ => Status.OK) k, k)) 0 =
        ((fun _ => Status.OK) (0 + 1), 0 + 1)) :=
  c6_return_if_error (fun _ => Status.fromCodeMsg Code.NOT_FOUND "missing key")
    (fun _ => Status.OK) 0

/-- The deep clone of a context box has the same observable value. -/
theorem cloneAny_eq (a : AnyPB) : cloneAny a = a := by
  cases a
  rfl

/-- The deep clone of a State has the same observable value (code, msg,
context) as the original — it differs only in identity, not content. -/
theorem cloneState_eq (st : State) : cloneState st = st := by
  obtain ⟨c, m, ctx⟩ := st
  cases ctx <;> simp [cloneState, cloneAny]

/-- Destroying a record does not move the allocation frontier. -/
theorem freeOpt_next (h : Heap) (d : HStatus) : (h.freeOpt d).next = h.next := by
  cases d <;> rfl

/-- A live address lies below the allocation frontier. -/
theorem live_lt_next (h : Heap) (p : Nat) (st : State)
    (hwf : Heap.wf h) (hp : h.mem p = some st) : p < h.next := by
  by_contra hge
  push_neg at hge
  rw [hwf p hge] at hp
  exact Option.noConfusion hp

/-- C5: copying a Status whose state is live yields a fresh record (the copy's
pointer is the never-used address `next`, distinct from the original's), the
original record is untouched, the fresh record holds the deep clone, the clone
has the same content as the original, the copy is operator==-equal to the
original, and after the original is destroyed the copy's record is still fully
intact. -/
theorem c5_copy_independence (h : Heap) (p : Nat) (st : State)
    (hwf : Heap.wf h) (hp : h.mem p = some st) :
    (copyStatus h (some p)).2 = some h.next ∧
    h.next ≠ p ∧
    (copyStatus h (some p)).1.mem p = some st ∧
    (copyStatus h (some p)).1.mem h.next = some (cloneState st) ∧
    cloneState st = st ∧
    (readStatus (copyStatus h (some p)).1 (copyStatus h (some p)).2).opEq
        (readStatus (copyStatus h (some p)).1 (some p)) = true ∧
    ((copyStatus h (some p)).1.free p).mem h.next = some (cloneState st) := by
  have hlt : p < h.next := live_lt_next h p st hwf hp
  have hne : h.next ≠ p := fun he => absurd (he ▸ hlt) (lt_irrefl _)
  have hcopy : copyStatus h (some p) =
      (⟨h.next + 1, fun a => if a = h.next then some (cloneState st) else h.mem a⟩,
        some h.next) := by
    simp [copyStatus, hp, Heap.alloc]
  refine ⟨by rw [hcopy], hne, ?_, ?_, cloneState_eq st, ?_, ?_⟩
  · rw [hcopy]
    show (if p = h.next then some (cloneState st) else h.mem p) = some st
    rw [if_neg (fun he => hne he.symm), hp]
  · rw [hcopy]
    show (if h.next = h.next then some (cloneState st) else h.mem h.next)
        = some (cloneState st)
    rw [if_pos rfl]
  · rw [hcopy]
    show (Status.mk (if h.next = h.next then some (cloneState st) else h.mem h.next)).opEq
        (Status.mk (if p = h.next then some (cloneState st) else h.mem p)) = true
    rw [if_pos rfl, if_neg (fun he => hne he.symm), hp, cloneState_eq st]
    exact opEq_refl _
  · rw [hcopy]
    show (if h.next = p then none
          else if h.next = h.next then some (cloneState st) else h.mem h.next)
        = some (cloneState st)
    rw [if_neg hne, if_pos rfl]

/-- C5 witness: copy independence on the concrete heap whose address 0 holds a
failure State carrying a context payload. -/
theorem c5_copy_independence_witness :
    (copyStatus wHeap (some 0)).2 = some wHeap.next ∧
    wHeap.next ≠ 0 ∧
    (copyStatus wHeap (some 0)).1.mem 0 = some wState ∧
    (copyStatus wHeap (some 0)).1.mem wHeap.next = some (cloneState wState) ∧
    cloneState wState = wState ∧
    (readStatus (copyStatus wHeap (some 0)).1 (copyStatus wHeap (some 0)).2).opEq
        (readStatus (copyStatus wHeap (some 0)).1 (some 0)) = true ∧
    ((copyStatus wHeap (some 0)).1.free 0).mem wHeap.next = some (cloneState wState) :=
  c5_copy_independence wHeap 0 wState
    (by
      intro a ha
      have h1 : (1 : Nat) ≤ a := ha
      show (if a = 0 then some wState else none) = none
      rw [if_neg (by omega)])
    (by
      show (if 0 = 0 then some wState else none) = some wState
      rw [if_pos rfl])

/-- C10: copy assignment. Self-assignment (the aliasing guard `state_ !=
s.state_`) leaves the heap and the value untouched; assigning a success status
resets the destination to null after destroying its old record; assigning a
live failure status with a different pointer installs a fresh deep clone (at
the never-used address `next`, so nothing is shared with the source), leaves
the source's record untouched, and makes the destination operator==-equal to
the source's original value. -/
theorem c10_assignment (h : Heap) (dst : HStatus) (q : Nat) (st : State)
    (hwf : Heap.wf h) (hq : h.mem q = some st) (hne : dst ≠ some q) :
    assignStatus h dst dst = (h, dst) ∧
    assignStatus h dst none = (h.freeOpt dst, none) ∧
    (assignStatus h dst (some q)).2 = some h.next ∧
    q ≠ h.next ∧
    (assignStatus h dst (some q)).1.mem q = some st ∧
    (assignStatus h dst (some q)).1.mem h.next = some (cloneState st) ∧
    (readStatus (assignStatus h dst (some q)).1 (assignStatus h dst (some q)).2).opEq
        (readStatus h (some q)) = true := by
  have hqne : q ≠ h.next := Nat.ne_of_lt (live_lt_next h q st hwf hq)
  have hmemq1 : (h.freeOpt dst).mem q = some st := by
    cases dst with
    | none => exact hq
    | some d =>
      have hdq : q ≠ d := fun he => hne (by rw [he])
      show (if q = d then none else h.mem q) = some st
      rw [if_neg hdq, hq]
  have hA : assignStatus h dst (some q) =
      (⟨h.next + 1,
        fun a => if a = h.next then some (cloneState st) else (h.freeOpt dst).mem a⟩,
        some h.next) := by
    simp [assignStatus, if_neg hne, hq, Heap.alloc, freeOpt_next]
  refine ⟨?_, ?_, by rw [hA], hqne, ?_, ?_, ?_⟩
  · show (if dst = dst then (h, dst) else _) = (h, dst)
    rw [if_pos rfl]
  · cases dst with
    | none => simp [assignStatus, Heap.freeOpt]
    | some d => simp [assignStatus, Heap.freeOpt]
  · rw [hA]
    show (if q = h.next then some (cloneState st) else (h.freeOpt dst).mem q) = some st
    rw [if_neg hqne, hmemq1]
  · rw [hA]
    show (if h.next = h.next then some (cloneState st) else (h.freeOpt dst).mem h.next)
        = some (cloneState st)
    rw [if_pos rfl]
  · rw [hA]
    show (Status.mk (if h.next = h.next then some (cloneState st)
            else (h.freeOpt dst).mem h.next)).opEq (Status.mk (h.mem q)) = true
    rw [if_pos rfl, hq, cloneState_eq st]
    exact opEq_refl _

/-- C10 witness: assignment on the concrete heap, with a null destination and
the live failure record at address 0 as source. -/
theorem c10_assignment_witness :
    assignStatus wHeap none none = (wHeap, none) ∧
    assignStatus wHeap none none = (wHeap.freeOpt none, none) ∧
    (assignStatus wHeap none (some 0)).2 = some wHeap.next ∧
    (0 : Nat) ≠ wHeap.next ∧
    (assignStatus wHeap none (some 0)).1.mem 0 = some wState ∧
    (assignStatus wHeap none (some 0)).1.mem wHeap.next = some (cloneState wState) ∧
    (readStatus (assignStatus wHeap none (some 0)).1
        (assignStatus wHeap none (some 0)).2).opEq (readStatus wHeap (some 0)) = true :=
  c10_assignment wHeap none 0 wState
    (by
      intro a ha
      have h1 : (1 : Nat) ≤ a := ha
      show (if a = 0 then some wState else none) = none
      rw [if_neg (by omega)])
    (by
      show (if 0 = 0 then some wState else none) = some wState
      rw [if_pos rfl])
    (by simp)

end pl
